import Mathlib

/-!
Verification of the TaxiCo backup/restore/retention engine.

This file is a shallow embedding, in Lean 4, of the backup subsystem of the
repository: the functions createBackup, restoreFromBackup, listBackups and
validateBackup (src/src/utils/response.ts, backup section) and the
BackupScheduler class (start and cleanupOldBackups).  Filesystem, database and
object-storage effects are modelled by explicit environments that record, for
every step the code performs, whether that step succeeds and what data it
yields; thrown JavaScript exceptions become Except values or Option error
slots, and the mutation of the metadata object becomes explicit state passing.
Documents held in collections are opaque values of a type parameter.
Concurrency of the per-collection fan-out is modelled sequentially; the claims
proved below depend only on the multiset of per-collection outcomes, never on
completion order.
-/

namespace TaxiCo

/-- Status values of a backup: the source strings are
"completed", "partial" and "failed".  The middle one is named
incomplete here because its source name is reserved in Lean. -/
inductive BackupStatus where
  | completed
  | incomplete
  | failed
deriving DecidableEq, Repr

/-- Source values of a backup: the source strings are "local", "gcs", "both". -/
inductive BackupSource where
  | localSource
  | gcs
  | both
deriving DecidableEq, Repr

/-- The BackupMetadata interface of the source.  Dates are modelled as
integer timestamps.  The errors field is optional in the source
(errors?: string[]), hence an Option here. -/
structure BackupMetadata where
  id : String
  date : Int
  collections : List String
  size : Nat
  status : BackupStatus
  errors : Option (List String)
  source : BackupSource
deriving DecidableEq, Repr

/-- The CollectionBackupResult interface of the source. -/
structure CollectionBackupResult where
  collection : String
  success : Bool
  recordCount : Option Nat
  error : Option String
deriving DecidableEq, Repr

/-- The fixed set of collection names backed up (COLLECTIONS in the source). -/
def COLLECTIONS : List String := ["Cab", "Customer", "Driver", "Ride"]

/-- Pointwise update of a string-keyed map, used to model writes to the
backup directory and to the primary data store. -/
def setKey {β : Type} (f : String → β) (name : String) (v : β) : String → β :=
  fun x => if x = name then v else f x

/-! ## createBackup -/

/-- Environment for one collection inside createBackup: the outcome of each
effectful step of the per-collection pipeline (find, writeFile, stat,
uploadFileToGCS).  A some value means that step throws with that message;
docs is what find returns when it succeeds, size what stat reports. -/
structure CollEnv (α : Type) where
  readErr : Option String
  docs : List α
  writeErr : Option String
  statErr : Option String
  size : Nat
  uploadErr : Option String

/-- Environment for one createBackup run: per-collection step outcomes plus
the outcomes of the setup and teardown steps (mkdir, metadata writeFile,
metadata upload) and the current time. -/
structure BackupEnv (α : Type) where
  colls : String → CollEnv α
  mkdirErr : Option String
  metaWriteErr : Option String
  metaUploadErr : Option String
  backupId : String
  now : Int

/-- One iteration of the per-collection fan-out of createBackup.
Returns the CollectionBackupResult, the size added to metadata.size
(stat runs before upload, so a failing upload still leaves the size added)
and the locally written file content (writeFile runs before stat, so a
failing stat or upload still leaves the file on disk). -/
def backupCollection {α : Type} (ce : CollEnv α) (name : String) :
    CollectionBackupResult × Nat × Option (List α) :=
  match ce.readErr with
  | some e => (⟨name, false, none, some e⟩, 0, none)
  | none =>
    match ce.writeErr with
    | some e => (⟨name, false, none, some e⟩, 0, none)
    | none =>
      match ce.statErr with
      | some e => (⟨name, false, none, some e⟩, 0, some ce.docs)
      | none =>
        match ce.uploadErr with
        | some e => (⟨name, false, none, some e⟩, ce.size, some ce.docs)
        | none => (⟨name, true, some ce.docs.length, none⟩, ce.size, some ce.docs)

/-- Accumulated state of one createBackup run: the results array, the
mutated metadata fields (collections, size, errors) and the files written
into the backup directory. -/
structure RunAcc (α : Type) where
  results : List CollectionBackupResult
  collections : List String
  size : Nat
  errors : List String
  files : String → Option (List α)

/-- Processing of one collection name inside the fan-out, threading the
accumulated run state.  On success the name is pushed onto
metadata.collections; on failure the message, prefixed by the name, is
pushed onto metadata.errors. -/
def backupStep {α : Type} (env : BackupEnv α) (acc : RunAcc α) (name : String) :
    RunAcc α :=
  match backupCollection (env.colls name) name with
  | (r, sz, file) =>
    { results := acc.results ++ [r]
      collections := acc.collections ++ (if r.success then [name] else [])
      size := acc.size + sz
      errors := acc.errors ++
        (match r.error with
         | some e => [name ++ ": " ++ e]
         | none => [])
      files :=
        match file with
        | some docs => setKey acc.files name (some docs)
        | none => acc.files }

/-- The whole per-collection loop of createBackup. -/
def runCollections {α : Type} (env : BackupEnv α) (acc : RunAcc α) :
    List String → RunAcc α
  | [] => acc
  | name :: rest => runCollections env (backupStep env acc name) rest

/-- The metadata object as it is first built at the top of createBackup. -/
def initMetadata {α : Type} (env : BackupEnv α) : BackupMetadata :=
  ⟨env.backupId, env.now, [], 0, BackupStatus.completed, some [], BackupSource.both⟩

/-- The accumulated state after the whole per-collection fan-out of one
createBackup run over the requested names. -/
def backupRunAcc {α : Type} (env : BackupEnv α) (reqs : List String) : RunAcc α :=
  runCollections env ⟨[], [], 0, [], fun _ => none⟩ reqs

/-- The status computed from the per-collection results: failed when the
failure count equals the length of the requested list, incomplete (the
source string is "partial") when at least one but not all failed, else
completed. -/
def backupRunStatus {α : Type} (env : BackupEnv α) (reqs : List String) : BackupStatus :=
  if ((backupRunAcc env reqs).results.filter (fun r => !r.success)).length = reqs.length then
    BackupStatus.failed
  else if 0 < ((backupRunAcc env reqs).results.filter (fun r => !r.success)).length then
    BackupStatus.incomplete
  else
    BackupStatus.completed

/-- The metadata object as it stands right after the status update of
createBackup, before the metadata file is written. -/
def backupRunMetadata {α : Type} (env : BackupEnv α) (reqs : List String) : BackupMetadata :=
  ⟨env.backupId, env.now, (backupRunAcc env reqs).collections, (backupRunAcc env reqs).size,
    backupRunStatus env reqs, some (backupRunAcc env reqs).errors, BackupSource.both⟩

/-- The body of the try block of createBackup, with exceptions explicit:
an error value carries the thrown message together with the metadata and
file state at the point of the throw, because the catch block of the source
closes over the mutated metadata object.  Mirrors the source order: mkdir,
per-collection fan-out, status computation, metadata writeFile, metadata
upload. -/
def createBackupBody {α : Type} (env : BackupEnv α) (reqs : List String) :
    Except (String × BackupMetadata × (String → Option (List α)))
      (BackupMetadata × (String → Option (List α))) :=
  match env.mkdirErr with
  | some e => Except.error (e, initMetadata env, fun _ => none)
  | none =>
    match env.metaWriteErr with
    | some e => Except.error (e, backupRunMetadata env reqs, (backupRunAcc env reqs).files)
    | none =>
      match env.metaUploadErr with
      | some e => Except.error (e, backupRunMetadata env reqs, (backupRunAcc env reqs).files)
      | none => Except.ok (backupRunMetadata env reqs, (backupRunAcc env reqs).files)

/-- The catch block of createBackup: force status failed, append the causing
error to metadata.errors, and return the metadata (the source returns it
normally instead of rethrowing). -/
def backupCatch {α : Type}
    (x : String × BackupMetadata × (String → Option (List α))) :
    BackupMetadata × (String → Option (List α)) :=
  match x with
  | (e, m, files) =>
    ({ m with status := BackupStatus.failed,
              errors := some (m.errors.getD [] ++ [e]) }, files)

/-- createBackup as its caller observes it: the value it returns, paired with
the backup-directory contents it leaves behind. -/
def createBackup {α : Type} (env : BackupEnv α) (reqs : List String) :
    BackupMetadata × (String → Option (List α)) :=
  match createBackupBody env reqs with
  | Except.ok x => x
  | Except.error x => backupCatch x

/-- createBackup observed together with its exception behaviour: an error
value would mean an exception escaping to the caller.  Both branches of the
source (normal return and catch) end in a return statement, which the
definition mirrors. -/
def createBackupE {α : Type} (env : BackupEnv α) (reqs : List String) :
    Except String (BackupMetadata × (String → Option (List α))) :=
  match createBackupBody env reqs with
  | Except.ok x => Except.ok x
  | Except.error x => Except.ok (backupCatch x)

/-- Whether an Except-observed run threw to its caller. -/
def isThrown {β : Type} : Except String β → Bool
  | Except.error _ => true
  | Except.ok _ => false

/-- A collection environment in which every step succeeds and the collection
holds the given documents. -/
def okCollEnv {α : Type} (docs : List α) (size : Nat) : CollEnv α :=
  ⟨none, docs, none, none, size, none⟩

/-- A backup environment in which every step succeeds over an empty store. -/
def cleanEnv : BackupEnv Nat :=
  ⟨fun _ => okCollEnv [] 0, none, none, none, "2024-01-01-00-00-00", 0⟩

/-- A backup environment in which creating the backup directory throws. -/
def envMkdirFail : BackupEnv Nat :=
  { cleanEnv with mkdirErr := some "EACCES: permission denied" }

/-- A backup environment in which every collection succeeds but persisting
the metadata file throws. -/
def envMetaFail : BackupEnv Nat :=
  { cleanEnv with metaWriteErr := some "ENOSPC: no space left on device" }

/-! ## restoreFromBackup -/

/-- Content of a collection file as JSON.parse sees it: an array of
documents, a parseable value that is not an array (whose length property is
undefined), or malformed JSON on which JSON.parse throws with the given
message. -/
inductive FileVal (α : Type) where
  | arr (docs : List α)
  | nonArray
  | malformed (msg : String)
deriving DecidableEq, Repr

/-- Environment for one restoreFromBackup run.  localFile models the files
present in the local backup directory, remoteFile the outcome of downloading
a collection file from GCS, readErr a failing fs.readFile after the file
exists, deleteErr and insertErr failing deleteMany and insertMany calls,
hydrateErr a failing mkdir or metadata download when the local backup
directory is missing, and store the primary data store. -/
structure RestoreEnv (α : Type) where
  dirExists : Bool
  hydrateErr : Option String
  localFile : String → Option (FileVal α)
  remoteFile : String → Except String (FileVal α)
  readErr : String → Option String
  deleteErr : String → Option String
  insertErr : String → Option String
  store : String → List α

/-- Obtaining the file of one collection during restore: the local copy when
it exists, otherwise the outcome of the lazy GCS download. -/
def fetchFile {α : Type} (env : RestoreEnv α) (name : String) :
    Except String (FileVal α) :=
  match env.localFile name with
  | some fv => Except.ok fv
  | none => env.remoteFile name

/-- The per-collection body of the restore loop: fetch the file (local first,
then lazy GCS hydration), read it, parse it, validate it when requested,
delete existing documents when requested, bulk-insert when the parsed array
is nonempty.  Every failure is caught and becomes a failed
CollectionBackupResult; the primary store for the collection is returned
updated only by the steps that actually ran. -/
def restoreCollection {α : Type} (env : RestoreEnv α)
    (deleteExisting validateData : Bool)
    (store : String → List α) (name : String) :
    CollectionBackupResult × (String → List α) :=
  match fetchFile env name with
  | Except.error e => (⟨name, false, none, some e⟩, store)
  | Except.ok fv =>
    match env.readErr name with
    | some e => (⟨name, false, none, some e⟩, store)
    | none =>
      match fv with
      | FileVal.malformed e => (⟨name, false, none, some e⟩, store)
      | FileVal.nonArray =>
        if validateData then
          (⟨name, false, none, some "Invalid data format: expected array"⟩, store)
        else if deleteExisting then
          match env.deleteErr name with
          | some e => (⟨name, false, none, some e⟩, store)
          | none => (⟨name, true, none, none⟩, setKey store name [])
        else
          (⟨name, true, none, none⟩, store)
      | FileVal.arr docs =>
        if deleteExisting then
          match env.deleteErr name with
          | some e => (⟨name, false, none, some e⟩, store)
          | none =>
            if 0 < docs.length then
              match env.insertErr name with
              | some e => (⟨name, false, none, some e⟩, setKey store name [])
              | none =>
                (⟨name, true, some docs.length, none⟩,
                  setKey store name ([] ++ docs))
            else
              (⟨name, true, some docs.length, none⟩, setKey store name [])
        else
          if 0 < docs.length then
            match env.insertErr name with
            | some e => (⟨name, false, none, some e⟩, store)
            | none =>
              (⟨name, true, some docs.length, none⟩,
                setKey store name (store name ++ docs))
          else
            (⟨name, true, some docs.length, none⟩, store)

/-- The restore loop over the requested collection names, threading the
results array and the primary store. -/
def restoreLoop {α : Type} (env : RestoreEnv α)
    (deleteExisting validateData : Bool) :
    List String → (List CollectionBackupResult × (String → List α)) →
    List CollectionBackupResult × (String → List α)
  | [], acc => acc
  | name :: rest, acc =>
    match restoreCollection env deleteExisting validateData acc.2 name with
    | (r, st) => restoreLoop env deleteExisting validateData rest (acc.1 ++ [r], st)

/-- restoreFromBackup: when the local backup directory is missing the
directory is created and the metadata file downloaded; a failure there lands
in the outer catch, which returns success false with a single result entry
named all.  Otherwise the loop runs and success is the conjunction of the
per-collection success flags.  The final primary store is returned alongside
to make the data-store effects observable. -/
def restoreFromBackup {α : Type} (env : RestoreEnv α)
    (collections : List String) (deleteExisting validateData : Bool) :
    (Bool × List CollectionBackupResult) × (String → List α) :=
  match env.dirExists with
  | true =>
    match restoreLoop env deleteExisting validateData collections ([], env.store) with
    | (results, st) => ((results.all (fun r => r.success), results), st)
  | false =>
    match env.hydrateErr with
    | some e => ((false, [⟨"all", false, none, some e⟩]), env.store)
    | none =>
      match restoreLoop env deleteExisting validateData collections ([], env.store) with
      | (results, st) => ((results.all (fun r => r.success), results), st)

/-- Whether fetching, reading, parsing or validating the file of the named
collection fails during a restore run with the given validateData flag:
exactly the failure modes that precede the deleteMany and insertMany calls
in the source. -/
def collFetchParseFails {α : Type} (env : RestoreEnv α)
    (validateData : Bool) (name : String) : Bool :=
  match fetchFile env name with
  | Except.error _ => true
  | Except.ok fv =>
    (env.readErr name).isSome ||
      (match fv with
       | FileVal.malformed _ => true
       | FileVal.nonArray => validateData
       | FileVal.arr _ => false)

/-! ## validateBackup -/

/-- Outcome of reading and parsing one collection file during validation:
a thrown read or parse error, a parsed non-array value, or an array with its
record count. -/
inductive VOutcome where
  | err (msg : String)
  | nonArr
  | arr (count : Nat)
deriving DecidableEq, Repr

/-- Environment for one validateBackup run: whether the backup directory
exists, whether getBackupDetails finds parseable metadata, and the outcome
per collection file. -/
structure ValidateEnv where
  dirExists : Bool
  metaOk : Bool
  coll : String → VOutcome

/-- The per-collection entry of the validation result. -/
structure CollValidation where
  valid : Bool
  recordCount : Option Nat
  error : Option String
deriving DecidableEq, Repr

/-- The aggregate validation result; collections is the string-keyed object
of the source, kept as an association list in insertion order. -/
structure ValidationResult where
  valid : Bool
  errors : List String
  collections : List (String × CollValidation)
deriving DecidableEq, Repr

/-- The entry validateBackup records for one collection file. -/
def validationEntry : VOutcome → CollValidation
  | VOutcome.err m => ⟨false, none, some m⟩
  | VOutcome.nonArr => ⟨false, none, some "Invalid format: not an array"⟩
  | VOutcome.arr n => ⟨true, some n, none⟩

/-- validateBackup: missing directory returns early with a top-level error;
missing metadata adds a top-level error; every name of the fixed COLLECTIONS
set gets an entry; valid is the conjunction of all entry flags with the
emptiness of the top-level errors. -/
def validateBackup (env : ValidateEnv) : ValidationResult :=
  if env.dirExists = false then
    ⟨false, ["Backup directory not found"], []⟩
  else
    let errors := if env.metaOk then [] else ["Metadata file not found"]
    let colls := COLLECTIONS.map (fun name => (name, validationEntry (env.coll name)))
    ⟨colls.all (fun p => p.2.valid) && errors.isEmpty, errors, colls⟩

/-! ## listBackups -/

/-- Environment for one listBackups run: the outcome of fs.readdir over the
backup root, the parseable metadata file found in each directory (none when
missing or unreadable), and whether date-fns parses the directory name under
the backup date format to a valid date. -/
structure ListEnv where
  readDirErr : Option String
  dirs : List String
  meta : String → Option BackupMetadata
  parseDate : String → Option Int

/-- The entry listBackups pushes for one directory: the stored metadata with
its source field overwritten to local, or, when no metadata is readable but
the directory name parses as a date, a synthesized entry; directories that
do neither are skipped. -/
def listEntry (env : ListEnv) (dir : String) : Option BackupMetadata :=
  match env.meta dir with
  | some m => some { m with source := BackupSource.localSource }
  | none =>
    match env.parseDate dir with
    | some d =>
      some ⟨dir, d, [], 0, BackupStatus.completed, none, BackupSource.localSource⟩
    | none => none

/-- listBackups: collect an entry per directory (a readdir failure is caught
and leaves the list empty), then sort by date, newest first. -/
def listBackups (env : ListEnv) : List BackupMetadata :=
  let collected :=
    match env.readDirErr with
    | some _ => []
    | none => env.dirs.filterMap (listEntry env)
  collected.mergeSort (fun a b => decide (b.date ≤ a.date))

/-! ## BackupScheduler -/

/-- The scheduler configuration (ScheduledBackupConfig in the source). -/
structure SchedConfig where
  enabled : Bool
  schedule : String
  collections : Option (List String)
  retentionDays : Int
  maxBackups : Nat
deriving DecidableEq, Repr

/-- The scheduler state: running models a non-null task field. -/
structure SchedulerState where
  running : Bool
  config : SchedConfig
deriving DecidableEq, Repr

/-- BackupScheduler.start, parameterized by the cron-expression validator the
source delegates to: disabled configurations and an already-running task
return without change; an invalid expression throws; otherwise the task is
scheduled. -/
def startScheduler (validate : String → Bool) (s : SchedulerState) :
    Except String SchedulerState :=
  if s.config.enabled = false then Except.ok s
  else if s.running then Except.ok s
  else if validate s.config.schedule = false then
    Except.error ("Invalid cron expression: " ++ s.config.schedule)
  else Except.ok { s with running := true }

/-- The ascending sort by date at the top of cleanupOldBackups (the source
comparator is the difference of the two timestamps; the sort is stable). -/
def sortByDate (backups : List BackupMetadata) : List BackupMetadata :=
  backups.mergeSort (fun a b => decide (a.date ≤ b.date))

/-- The remainingBackups list of cleanupOldBackups: the sorted backups whose
date is at or after the cutoff. -/
def retentionWindow (backups : List BackupMetadata) (cutoff : Int) :
    List BackupMetadata :=
  (sortByDate backups).filter (fun b => decide (cutoff ≤ b.date))

/-- The number of backups beyond the retention cap inside the window. -/
def retentionExcess (backups : List BackupMetadata) (cutoff : Int)
    (maxBackups : Nat) : Nat :=
  (retentionWindow backups cutoff).length - maxBackups

/-- The selection step of BackupScheduler.cleanupOldBackups: sort the listed
backups by date ascending, select those strictly older than the cutoff, and,
when more than maxBackups remain at or after the cutoff, additionally the
oldest excess of those.  The cutoff is the current time minus the retention
window, matching the date arithmetic of the source at integer-timestamp
granularity. -/
def backupsToDelete (backups : List BackupMetadata) (now daysSpan : Int)
    (maxBackups : Nat) : List BackupMetadata :=
  if maxBackups < (retentionWindow backups (now - daysSpan)).length then
    (sortByDate backups).filter (fun b => decide (b.date < now - daysSpan))
      ++ (retentionWindow backups (now - daysSpan)).take
          (retentionExcess backups (now - daysSpan) maxBackups)
  else
    (sortByDate backups).filter (fun b => decide (b.date < now - daysSpan))

/-! ## Concrete environments used as witnesses and counterexamples -/

/-- Decidable equality of Except values, needed to evaluate claims about the
exception behaviour of the embedded functions on concrete inputs. -/
instance {ε α : Type} [DecidableEq ε] [DecidableEq α] : DecidableEq (Except ε α) := fun x y =>
  match x, y with
  | Except.ok a, Except.ok b =>
    if h : a = b then isTrue (by rw [h]) else isFalse (fun hc => h (Except.ok.inj hc))
  | Except.error a, Except.error b =>
    if h : a = b then isTrue (by rw [h]) else isFalse (fun hc => h (Except.error.inj hc))
  | Except.ok _, Except.error _ => isFalse (fun hc => Except.noConfusion hc)
  | Except.error _, Except.ok _ => isFalse (fun hc => Except.noConfusion hc)

/-- A backup environment in which every step succeeds and each collection
holds the documents the given primary store assigns to it. -/
def roundTripBackupEnv {α : Type} (store : String → List α) : BackupEnv α :=
  ⟨fun n => okCollEnv (store n) 0, none, none, none, "2024-01-01-00-00-00", 0⟩

/-- A restore environment over an emptied primary store whose local backup
directory holds exactly the given files, every effectful step succeeding. -/
def roundTripRestoreEnv {α : Type} (files : String → Option (List α)) :
    RestoreEnv α :=
  { dirExists := true
    hydrateErr := none
    localFile := fun n => (files n).map FileVal.arr
    remoteFile := fun _ => Except.error "No such object"
    readErr := fun _ => none
    deleteErr := fun _ => none
    insertErr := fun _ => none
    store := fun _ => [] }

/-- A restore environment whose local backup directory holds one well-formed
file per known collection over a two-document store. -/
def wRestoreEnv : RestoreEnv Nat :=
  { dirExists := true
    hydrateErr := none
    localFile := fun _ => some (FileVal.arr [1, 2])
    remoteFile := fun _ => Except.error "No such object"
    readErr := fun _ => none
    deleteErr := fun _ => none
    insertErr := fun _ => none
    store := fun _ => [] }

/-- A restore environment in which the file of the Driver collection is
corrupted and everything else succeeds. -/
def wRestoreEnvBadDriver : RestoreEnv Nat :=
  { wRestoreEnv with
    localFile := fun n =>
      if n = "Driver" then some (FileVal.malformed "Unexpected token i in JSON")
      else some (FileVal.arr [1, 2]) }

/-- A restore environment whose local backup directory is missing and whose
hydration from GCS fails. -/
def wRestoreEnvNoDir : RestoreEnv Nat :=
  { wRestoreEnv with
    dirExists := false
    hydrateErr := some "Download failed: No such object" }

/-- A validation environment in which exactly the Customer collection file is
corrupted. -/
def venvCorrupt : ValidateEnv :=
  ⟨true, true, fun n =>
    if n = "Customer" then VOutcome.err "Unexpected token i in JSON"
    else VOutcome.arr 2⟩

/-- A listing environment with one metadata-less directory whose name parses
under the backup date format. -/
def wListEnv : ListEnv :=
  ⟨none, ["2024-01-01-00-00-00"], fun _ => none,
    fun s => if s = "2024-01-01-00-00-00" then some 99 else none⟩

/-- A cron validator accepting exactly the default schedule of the source. -/
def wValidate : String → Bool := fun s => s == "0 2 * * *"

/-- An enabled scheduler configuration with a valid schedule. -/
def cfgOk : SchedConfig := ⟨true, "0 2 * * *", none, 7, 10⟩

/-- An enabled scheduler configuration with an invalid schedule. -/
def cfgBad : SchedConfig := ⟨true, "not a cron expr", none, 7, 10⟩

/-- A disabled scheduler configuration. -/
def cfgOff : SchedConfig := ⟨false, "0 2 * * *", none, 7, 10⟩

/-- A backup metadata value with the given identifier and date, used to build
concrete retention scenarios. -/
def mkBackup (id : String) (d : Int) : BackupMetadata :=
  ⟨id, d, [], 0, BackupStatus.completed, none, BackupSource.localSource⟩

/-! ## Counting lemmas for the createBackup fan-out -/

theorem length_filter_add_length_filter_not {α : Type} (l : List α) (p : α → Bool) :
    (l.filter p).length + (l.filter (fun a => !p a)).length = l.length := by
  induction l with
  | nil => rfl
  | cons a l ih =>
    cases hp : p a <;> simp [List.filter_cons, hp, Nat.add_assoc, Nat.add_comm, ← ih] <;> omega

theorem backupStep_results {α : Type} (env : BackupEnv α) (acc : RunAcc α) (name : String) :
    (backupStep env acc name).results
      = acc.results ++ [(backupCollection (env.colls name) name).1] :=
  rfl

theorem backupCollection_error_success {α : Type} (ce : CollEnv α) (name : String) :
    ((backupCollection ce name).1.error = none) = ((backupCollection ce name).1.success = true) := by
  unfold backupCollection
  rcases ce with ⟨re, d, we, se, sz, ue⟩
  cases re <;> cases we <;> cases se <;> cases ue <;> simp

theorem backupStep_collections {α : Type} (env : BackupEnv α) (acc : RunAcc α) (name : String) :
    (backupStep env acc name).collections
      = acc.collections
        ++ (if (backupCollection (env.colls name) name).1.success then [name] else []) :=
  rfl

theorem backupStep_errors {α : Type} (env : BackupEnv α) (acc : RunAcc α) (name : String) :
    (backupStep env acc name).errors
      = acc.errors
        ++ (match (backupCollection (env.colls name) name).1.error with
            | some e => [name ++ ": " ++ e]
            | none => []) :=
  rfl

theorem backupStep_collections_length {α : Type} (env : BackupEnv α) (acc : RunAcc α)
    (name : String) :
    (backupStep env acc name).collections.length
      = acc.collections.length
        + (if (backupCollection (env.colls name) name).1.success then 1 else 0) := by
  rw [backupStep_collections]
  cases hs : (backupCollection (env.colls name) name).1.success <;> simp [hs]

theorem backupStep_errors_length {α : Type} (env : BackupEnv α) (acc : RunAcc α)
    (name : String) :
    (backupStep env acc name).errors.length
      = acc.errors.length
        + (if (backupCollection (env.colls name) name).1.success then 0 else 1) := by
  rw [backupStep_errors]
  cases hs : (backupCollection (env.colls name) name).1.success
  · have h := backupCollection_error_success (env.colls name) name
    rw [hs] at h
    simp only [Bool.false_eq_true, eq_iff_iff, iff_false] at h
    rcases he : (backupCollection (env.colls name) name).1.error with _ | e
    · exact absurd he h
    · simp
  · have h := backupCollection_error_success (env.colls name) name
    rw [hs] at h
    simp only [eq_iff_iff, iff_true] at h
    rw [h]
    simp

theorem runCollections_results_length {α : Type} (env : BackupEnv α) (reqs : List String) :
    ∀ acc : RunAcc α,
      (runCollections env acc reqs).results.length = acc.results.length + reqs.length := by
  induction reqs with
  | nil => intro acc; simp [runCollections]
  | cons name rest ih =>
    intro acc
    rw [runCollections, ih, backupStep_results]
    simp [Nat.add_assoc, Nat.add_comm 1 rest.length]

theorem runCollections_succ_collections {α : Type} (env : BackupEnv α) (reqs : List String) :
    ∀ acc : RunAcc α,
      ((runCollections env acc reqs).results.filter (fun r => r.success)).length
          + acc.collections.length
        = (runCollections env acc reqs).collections.length
          + (acc.results.filter (fun r => r.success)).length := by
  induction reqs with
  | nil => intro acc; simp [runCollections, Nat.add_comm]
  | cons name rest ih =>
    intro acc
    rw [runCollections]
    have h := ih (backupStep env acc name)
    rw [backupStep_results, backupStep_collections_length] at h
    cases hs : (backupCollection (env.colls name) name).1.success <;>
      rw [hs] at h <;> simp [List.filter_append, hs] at h ⊢ <;> omega

theorem runCollections_fail_errors {α : Type} (env : BackupEnv α) (reqs : List String) :
    ∀ acc : RunAcc α,
      ((runCollections env acc reqs).results.filter (fun r => !r.success)).length
          + acc.errors.length
        = (runCollections env acc reqs).errors.length
          + (acc.results.filter (fun r => !r.success)).length := by
  induction reqs with
  | nil => intro acc; simp [runCollections, Nat.add_comm]
  | cons name rest ih =>
    intro acc
    rw [runCollections]
    have h := ih (backupStep env acc name)
    rw [backupStep_results, backupStep_errors_length] at h
    cases hs : (backupCollection (env.colls name) name).1.success <;>
      rw [hs] at h <;> simp [List.filter_append, hs] at h ⊢ <;> omega

theorem backupRun_counts {α : Type} (env : BackupEnv α) (reqs : List String) :
    ((backupRunAcc env reqs).results.filter (fun r => r.success)).length
        = (backupRunAcc env reqs).collections.length
      ∧ ((backupRunAcc env reqs).results.filter (fun r => !r.success)).length
        = (backupRunAcc env reqs).errors.length
      ∧ (backupRunAcc env reqs).results.length = reqs.length := by
  refine ⟨?_, ?_, ?_⟩
  · have h := runCollections_succ_collections env reqs ⟨[], [], 0, [], fun _ => none⟩
    simpa [backupRunAcc] using h
  · have h := runCollections_fail_errors env reqs ⟨[], [], 0, [], fun _ => none⟩
    simpa [backupRunAcc] using h
  · have h := runCollections_results_length env reqs ⟨[], [], 0, [], fun _ => none⟩
    simpa [backupRunAcc] using h

theorem backupRunStatus_completed_iff {α : Type} (env : BackupEnv α) (reqs : List String)
    (hne : reqs ≠ []) :
    (backupRunStatus env reqs = BackupStatus.completed ↔
      ((backupRunAcc env reqs).results.filter (fun r => !r.success)).length = 0) := by
  have hn : reqs.length ≠ 0 := fun h => hne (List.length_eq_zero.mp h)
  unfold backupRunStatus
  split_ifs with h1 h2
  · constructor
    · intro h
      exact h.elim
    · intro h0
      exact absurd (h1.symm.trans h0) hn
  · constructor
    · intro h
      exact h.elim
    · intro h0
      exact absurd h0 (Nat.pos_iff_ne_zero.mp h2)
  · constructor
    · intro _
      omega
    · intro _
      rfl

theorem backupRunStatus_failed_iff {α : Type} (env : BackupEnv α) (reqs : List String) :
    (backupRunStatus env reqs = BackupStatus.failed ↔
      ((backupRunAcc env reqs).results.filter (fun r => !r.success)).length = reqs.length) := by
  unfold backupRunStatus
  split_ifs with h1 h2
  · exact ⟨fun _ => h1, fun _ => rfl⟩
  · constructor
    · intro h
      exact h.elim
    · intro h0
      exact absurd h0 h1
  · constructor
    · intro h
      exact h.elim
    · intro h0
      exact absurd h0 h1

/-! ## Claim C1 -/

/-- Claim C1 as stated is false on the code: over an empty requested list
with every setup step succeeding, createBackup returns status failed (its
failure count, zero, equals the requested length, zero) even though the
errors sequence is empty and the collections count equals the requested
count. -/
theorem createBackup_completed_iff_cex :
    ¬ (((createBackup cleanEnv []).1.status = BackupStatus.completed) ↔
       ((createBackup cleanEnv []).1.errors = some [] ∧
        (createBackup cleanEnv []).1.collections.length = ([] : List String).length)) := by
  decide

/-- Claim C1 (amended): over a nonempty requested list, the metadata returned
by createBackup has status completed exactly when its errors sequence is
empty and the number of entries in its collections sequence equals the
number of requested collections. -/
theorem createBackup_completed_iff {α : Type} (env : BackupEnv α) (reqs : List String)
    (hne : reqs ≠ []) :
    ((createBackup env reqs).1.status = BackupStatus.completed ↔
      ((createBackup env reqs).1.errors = some [] ∧
       (createBackup env reqs).1.collections.length = reqs.length)) := by
  obtain ⟨hS, hF, hL⟩ := backupRun_counts env reqs
  have hP := length_filter_add_length_filter_not
    (backupRunAcc env reqs).results (fun r => r.success)
  unfold createBackup createBackupBody
  cases hm : env.mkdirErr with
  | some e => simp [backupCatch, initMetadata]
  | none =>
    cases hw : env.metaWriteErr with
    | some e => simp [backupCatch, backupRunMetadata]
    | none =>
      cases hu : env.metaUploadErr with
      | some e => simp [backupCatch, backupRunMetadata]
      | none =>
        show (backupRunMetadata env reqs).status = BackupStatus.completed ↔ _
        rw [show (backupRunMetadata env reqs).status = backupRunStatus env reqs from rfl,
          show (backupRunMetadata env reqs).errors
            = some (backupRunAcc env reqs).errors from rfl,
          show (backupRunMetadata env reqs).collections
            = (backupRunAcc env reqs).collections from rfl,
          backupRunStatus_completed_iff env reqs hne]
        constructor
        · intro h0
          have he : (backupRunAcc env reqs).errors = [] :=
            List.length_eq_zero.mp (by omega)
          exact ⟨by rw [he], by omega⟩
        · rintro ⟨h1, h2⟩
          have hl0 : (backupRunAcc env reqs).errors.length = 0 := by
            rw [Option.some.inj h1]
            rfl
          omega

/-- Witness: the amended claim C1 applied over one requested collection in a
fully succeeding environment. -/
theorem createBackup_completed_iff_witness :
    (["Cab"] : List String) ≠ [] ∧
      ((createBackup cleanEnv ["Cab"]).1.status = BackupStatus.completed ↔
        ((createBackup cleanEnv ["Cab"]).1.errors = some [] ∧
         (createBackup cleanEnv ["Cab"]).1.collections.length
           = (["Cab"] : List String).length)) :=
  ⟨by decide, createBackup_completed_iff cleanEnv ["Cab"] (by decide)⟩

/-! ## Claim C2 -/

/-- Claim C2 as stated is false on the code: when the Cab collection is
backed up successfully and the later metadata write throws, the catch block
forces status failed while metadata.collections still holds Cab, so failed
status does not imply an empty collections sequence. -/
theorem createBackup_failed_iff_cex :
    ¬ (((createBackup envMetaFail ["Cab"]).1.status = BackupStatus.failed) ↔
       (createBackup envMetaFail ["Cab"]).1.collections = []) := by
  decide

/-- Claim C2 (amended): in runs whose directory-creation and
metadata-persistence steps succeed, the metadata returned by createBackup
has status failed exactly when its collections sequence is empty; this holds
for every requested list, including the empty one. -/
theorem createBackup_failed_iff {α : Type} (env : BackupEnv α) (reqs : List String)
    (h1 : env.mkdirErr = none) (h2 : env.metaWriteErr = none)
    (h3 : env.metaUploadErr = none) :
    ((createBackup env reqs).1.status = BackupStatus.failed ↔
      (createBackup env reqs).1.collections = []) := by
  obtain ⟨hS, hF, hL⟩ := backupRun_counts env reqs
  have hP := length_filter_add_length_filter_not
    (backupRunAcc env reqs).results (fun r => r.success)
  unfold createBackup createBackupBody
  rw [h1, h2, h3]
  show (backupRunMetadata env reqs).status = BackupStatus.failed ↔ _
  rw [show (backupRunMetadata env reqs).status = backupRunStatus env reqs from rfl,
    show (backupRunMetadata env reqs).collections
      = (backupRunAcc env reqs).collections from rfl,
    backupRunStatus_failed_iff env reqs]
  constructor
  · intro h0
    exact List.length_eq_zero.mp (by omega)
  · intro h0
    have hc0 : (backupRunAcc env reqs).collections.length = 0 := by
      rw [h0]
      rfl
    omega

/-- Witness: the amended claim C2 applied in a fully succeeding environment
over one requested collection. -/
theorem createBackup_failed_iff_witness :
    cleanEnv.mkdirErr = none ∧ cleanEnv.metaWriteErr = none ∧
      cleanEnv.metaUploadErr = none ∧
      ((createBackup cleanEnv ["Cab"]).1.status = BackupStatus.failed ↔
        (createBackup cleanEnv ["Cab"]).1.collections = []) :=
  ⟨rfl, rfl, rfl, createBackup_failed_iff cleanEnv ["Cab"] rfl rfl rfl⟩

/-! ## Claim C3 -/

/-- Claim C3 as stated is false on the code: a failing directory creation is
a setup-level failure, yet createBackup does not propagate it -- the outer
catch block swallows it and returns the metadata normally. -/
theorem createBackup_throws_cex :
    ¬ ((isThrown (createBackupE envMkdirFail COLLECTIONS) = true) ↔
       (envMkdirFail.mkdirErr.isSome = true ∨
        envMkdirFail.metaWriteErr.isSome = true ∨
        envMkdirFail.metaUploadErr.isSome = true)) := by
  decide

/-- Claim C3 (amended): createBackup never propagates an exception to its
caller; setup-level failures and per-collection failures alike are caught,
and the function always returns its metadata result normally. -/
theorem createBackup_never_throws {α : Type} (env : BackupEnv α) (reqs : List String) :
    createBackupE env reqs = Except.ok (createBackup env reqs) := by
  unfold createBackupE createBackup
  cases createBackupBody env reqs <;> rfl

/-! ## Lemmas about the restore loop -/

theorem restoreCollection_collection {α : Type} (env : RestoreEnv α)
    (dE vD : Bool) (st : String → List α) (name : String) :
    (restoreCollection env dE vD st name).1.collection = name := by
  unfold restoreCollection
  repeat' split
  all_goals rfl

theorem restoreCollection_store_other {α : Type} (env : RestoreEnv α)
    (dE vD : Bool) (st : String → List α) (c name : String) (h : c ≠ name) :
    (restoreCollection env dE vD st c).2 name = st name := by
  have hnc : ¬ (name = c) := fun hh => h hh.symm
  unfold restoreCollection
  repeat' split
  all_goals simp [setKey, hnc]

theorem restoreCollection_fails {α : Type} (env : RestoreEnv α)
    (dE vD : Bool) (st : String → List α) (name : String)
    (h : collFetchParseFails env vD name = true) :
    (restoreCollection env dE vD st name).2 = st ∧
      (restoreCollection env dE vD st name).1.success = false := by
  unfold collFetchParseFails at h
  unfold restoreCollection
  cases hf : fetchFile env name with
  | error e => exact ⟨rfl, rfl⟩
  | ok fv =>
    rw [hf] at h
    cases hr : env.readErr name with
    | some e => exact ⟨rfl, rfl⟩
    | none =>
      rw [hr] at h
      simp only [Option.isSome_none, Bool.false_or] at h
      cases fv with
      | malformed e => exact ⟨rfl, rfl⟩
      | nonArray =>
        simp only [] at h
        rw [h]
        exact ⟨rfl, rfl⟩
      | arr docs =>
        simp at h

theorem restoreLoop_store_preserved {α : Type} (env : RestoreEnv α)
    (dE vD : Bool) (name : String)
    (hfail : collFetchParseFails env vD name = true) :
    ∀ (reqs : List String) (acc : List CollectionBackupResult)
      (st : String → List α),
      (restoreLoop env dE vD reqs (acc, st)).2 name = st name := by
  intro reqs
  induction reqs with
  | nil =>
    intro acc st
    rfl
  | cons c rest ih =>
    intro acc st
    show (restoreLoop env dE vD rest
      (acc ++ [(restoreCollection env dE vD st c).1],
        (restoreCollection env dE vD st c).2)).2 name = st name
    by_cases hc : c = name
    · subst hc
      rw [ih _ _, (restoreCollection_fails env dE vD st c hfail).1]
    · rw [ih _ _, restoreCollection_store_other env dE vD st c name hc]

theorem restoreLoop_results_mono {α : Type} (env : RestoreEnv α) (dE vD : Bool) :
    ∀ (reqs : List String) (acc : List CollectionBackupResult)
      (st : String → List α) (r : CollectionBackupResult), r ∈ acc →
      r ∈ (restoreLoop env dE vD reqs (acc, st)).1 := by
  intro reqs
  induction reqs with
  | nil =>
    intro acc st r hr
    exact hr
  | cons c rest ih =>
    intro acc st r hr
    show r ∈ (restoreLoop env dE vD rest
      (acc ++ [(restoreCollection env dE vD st c).1],
        (restoreCollection env dE vD st c).2)).1
    exact ih _ _ r (List.mem_append.mpr (Or.inl hr))

theorem restoreLoop_records_failure {α : Type} (env : RestoreEnv α)
    (dE vD : Bool) (name : String)
    (hfail : collFetchParseFails env vD name = true) :
    ∀ (reqs : List String) (acc : List CollectionBackupResult)
      (st : String → List α), name ∈ reqs →
      ∃ r, r ∈ (restoreLoop env dE vD reqs (acc, st)).1 ∧
        r.collection = name ∧ r.success = false := by
  intro reqs
  induction reqs with
  | nil =>
    intro acc st h
    exact absurd h (List.not_mem_nil name)
  | cons c rest ih =>
    intro acc st hmem
    show ∃ r, r ∈ (restoreLoop env dE vD rest
      (acc ++ [(restoreCollection env dE vD st c).1],
        (restoreCollection env dE vD st c).2)).1 ∧
      r.collection = name ∧ r.success = false
    by_cases hc : c = name
    · subst hc
      refine ⟨(restoreCollection env dE vD st c).1, ?_,
        restoreCollection_collection env dE vD st c,
        (restoreCollection_fails env dE vD st c hfail).2⟩
      exact restoreLoop_results_mono env dE vD rest _ _ _
        (List.mem_append.mpr (Or.inr (List.mem_singleton_self _)))
    · rcases List.mem_cons.mp hmem with h1 | h2
      · exact absurd h1.symm hc
      · exact ih _ _ h2

theorem restoreLoop_results_map {α : Type} (env : RestoreEnv α) (dE vD : Bool) :
    ∀ (reqs : List String) (acc : List CollectionBackupResult)
      (st : String → List α),
      (restoreLoop env dE vD reqs (acc, st)).1.map (fun r => r.collection)
        = acc.map (fun r => r.collection) ++ reqs := by
  intro reqs
  induction reqs with
  | nil =>
    intro acc st
    simp [restoreLoop]
  | cons c rest ih =>
    intro acc st
    show (restoreLoop env dE vD rest
      (acc ++ [(restoreCollection env dE vD st c).1],
        (restoreCollection env dE vD st c).2)).1.map (fun r => r.collection) = _
    rw [ih]
    simp [restoreCollection_collection]

/-! ## Claim C4 -/

/-- Claim C4: restoreFromBackup returns success true exactly when every
entry of its results sequence is a success; when setup succeeds the results
correspond one to one, in order, to the requested collections (so the
equivalence is vacuously a success for an empty requested list), and a setup
failure (missing local directory whose hydration from GCS throws) always
yields success false. -/
theorem restore_success_iff {α : Type} (env : RestoreEnv α) (reqs : List String)
    (dE vD : Bool) :
    ((restoreFromBackup env reqs dE vD).1.1 = true ↔
        ∀ r ∈ (restoreFromBackup env reqs dE vD).1.2, r.success = true)
      ∧ ((env.dirExists || env.hydrateErr.isNone) = true →
          (restoreFromBackup env reqs dE vD).1.2.map (fun r => r.collection) = reqs)
      ∧ ((!env.dirExists && env.hydrateErr.isSome) = true →
          (restoreFromBackup env reqs dE vD).1.1 = false) := by
  unfold restoreFromBackup
  cases hd : env.dirExists with
  | true =>
    refine ⟨List.all_eq_true, fun _ => ?_, fun hcontra => by simp at hcontra⟩
    have h := restoreLoop_results_map env dE vD reqs [] env.store
    simpa using h
  | false =>
    cases hh : env.hydrateErr with
    | some e =>
      refine ⟨?_, fun hcontra => by simp at hcontra, fun _ => rfl⟩
      constructor
      · intro h
        exact absurd h (by simp)
      · intro hall
        exact hall ⟨"all", false, none, some e⟩ (by simp)
    | none =>
      refine ⟨List.all_eq_true, fun _ => ?_, fun hcontra => by simp at hcontra⟩
      have h := restoreLoop_results_map env dE vD reqs [] env.store
      simpa using h

/-- Witness: claim C4 applied to a fully succeeding restore over the known
collections, and to a restore whose directory hydration fails. -/
theorem restore_success_iff_witness :
    ((restoreFromBackup wRestoreEnv COLLECTIONS true true).1.2.map
        (fun r => r.collection) = COLLECTIONS)
      ∧ ((restoreFromBackup wRestoreEnvNoDir COLLECTIONS true true).1.1 = false) :=
  ⟨(restore_success_iff wRestoreEnv COLLECTIONS true true).2.1 (by decide),
   (restore_success_iff wRestoreEnvNoDir COLLECTIONS true true).2.2 (by decide)⟩

/-! ## Claim C10 -/

/-- Claim C10: when fetching, reading, parsing or ordered-sequence validation
of one collection's file fails during restoreFromBackup, that collection's
documents in the primary store are left exactly as they were, and whenever
the collection was requested and the loop ran, some entry of the results
sequence records the failure for that collection; the delete-existing and
bulk-insert steps come after these failure points in the source and are
never reached for it. -/
theorem restore_error_leaves_collection {α : Type} (env : RestoreEnv α)
    (reqs : List String) (dE vD : Bool) (name : String)
    (hfail : collFetchParseFails env vD name = true) :
    (restoreFromBackup env reqs dE vD).2 name = env.store name ∧
      (name ∈ reqs → (env.dirExists || env.hydrateErr.isNone) = true →
        (restoreFromBackup env reqs dE vD).1.2.any
          (fun r => r.collection == name && !r.success) = true) := by
  unfold restoreFromBackup
  cases hd : env.dirExists with
  | true =>
    constructor
    · exact restoreLoop_store_preserved env dE vD name hfail reqs [] env.store
    · intro hmem _
      obtain ⟨r, hr, hcoll, hsucc⟩ :=
        restoreLoop_records_failure env dE vD name hfail reqs [] env.store hmem
      exact List.any_eq_true.mpr ⟨r, hr, by simp [hcoll, hsucc]⟩
  | false =>
    cases hh : env.hydrateErr with
    | some e =>
      constructor
      · rfl
      · intro _ hcontra
        simp at hcontra
    | none =>
      constructor
      · exact restoreLoop_store_preserved env dE vD name hfail reqs [] env.store
      · intro hmem _
        obtain ⟨r, hr, hcoll, hsucc⟩ :=
          restoreLoop_records_failure env dE vD name hfail reqs [] env.store hmem
        exact List.any_eq_true.mpr ⟨r, hr, by simp [hcoll, hsucc]⟩

/-- Witness: claim C10 applied to a restore of the known collections in which
exactly the Driver file is corrupted. -/
theorem restore_error_leaves_collection_witness :
    collFetchParseFails wRestoreEnvBadDriver true "Driver" = true ∧
      (restoreFromBackup wRestoreEnvBadDriver COLLECTIONS true true).2 "Driver"
        = wRestoreEnvBadDriver.store "Driver" ∧
      (restoreFromBackup wRestoreEnvBadDriver COLLECTIONS true true).1.2.any
        (fun r => r.collection == "Driver" && !r.success) = true :=
  ⟨by decide,
   (restore_error_leaves_collection wRestoreEnvBadDriver COLLECTIONS true true
      "Driver" (by decide)).1,
   (restore_error_leaves_collection wRestoreEnvBadDriver COLLECTIONS true true
      "Driver" (by decide)).2 (by decide) (by decide)⟩

/-! ## Claim C7 -/

/-- Claim C7: backing up one collection holding a list of documents, then
restoring that backup with deleteExisting true against an emptied primary
store, leaves the store holding exactly those documents for the collection
up to order (here, literally a permutation of the originals). -/
theorem backup_restore_roundTrip {α : Type} (store : String → List α)
    (name : String) :
    List.Perm
      ((restoreFromBackup
          (roundTripRestoreEnv ((createBackup (roundTripBackupEnv store) [name]).2))
          [name] true true).2 name)
      (store name) := by
  rcases hdocs : store name with _ | ⟨d, ds⟩ <;>
    simp [restoreFromBackup, restoreLoop, restoreCollection, fetchFile,
      roundTripRestoreEnv, roundTripBackupEnv, createBackup, createBackupBody,
      backupRunAcc, runCollections, backupStep, backupCollection, okCollEnv,
      setKey, hdocs]

/-! ## Claim C6 -/

/-- Claim C6: validateBackup reports overall valid exactly when there are
zero top-level errors and every name of the full fixed COLLECTIONS set has a
valid entry; moreover, on a backup in which exactly the Customer collection
file is corrupted, that entry is invalid with the parse message, every other
collection entry stays valid, and the overall verdict is invalid. -/
theorem validateBackup_valid_iff :
    (∀ env : ValidateEnv,
      (validateBackup env).valid
        = ((validateBackup env).errors.isEmpty &&
            COLLECTIONS.all (fun n =>
              match (validateBackup env).collections.lookup n with
              | some entry => entry.valid
              | none => false)))
    ∧ (validateBackup venvCorrupt).valid = false
    ∧ (validateBackup venvCorrupt).collections.lookup "Customer"
        = some ⟨false, none, some "Unexpected token i in JSON"⟩
    ∧ (["Cab", "Driver", "Ride"].all (fun n =>
        match (validateBackup venvCorrupt).collections.lookup n with
        | some entry => entry.valid
        | none => false)) = true := by
  refine ⟨fun env => ?_, by decide, by decide, by decide⟩
  unfold validateBackup
  cases hd : env.dirExists with
  | false => rfl
  | true =>
    cases hm : env.metaOk with
    | false =>
      show ((COLLECTIONS.map (fun name => (name, validationEntry (env.coll name)))).all
          (fun p => p.2.valid) && false)
        = (false && COLLECTIONS.all (fun n =>
            match (COLLECTIONS.map
                (fun name => (name, validationEntry (env.coll name)))).lookup n with
            | some entry => entry.valid
            | none => false))
      rw [Bool.and_false, Bool.false_and]
    | true =>
      show ((COLLECTIONS.map (fun name => (name, validationEntry (env.coll name)))).all
          (fun p => p.2.valid) && true)
        = (true && COLLECTIONS.all (fun n =>
            match (COLLECTIONS.map
                (fun name => (name, validationEntry (env.coll name)))).lookup n with
            | some entry => entry.valid
            | none => false))
      rw [Bool.and_true, Bool.true_and]
      rfl

/-! ## Claim C9 -/

/-- Claim C9: every directory under the backup root with no readable metadata
file whose name parses under the backup date format contributes a
synthesized listing entry with status completed, an empty collections list,
size zero and source local -- so a completed entry with an empty collections
list can appear at the listing interface. -/
theorem listBackups_synthesized (env : ListEnv) (dir : String) (d : Int)
    (h1 : env.readDirErr = none) (h2 : dir ∈ env.dirs)
    (h3 : env.meta dir = none) (h4 : env.parseDate dir = some d) :
    (⟨dir, d, [], 0, BackupStatus.completed, none, BackupSource.localSource⟩ :
        BackupMetadata)
      ∈ listBackups env := by
  unfold listBackups
  rw [h1]
  rw [List.mem_mergeSort]
  refine List.mem_filterMap.mpr ⟨dir, h2, ?_⟩
  unfold listEntry
  rw [h3, h4]

/-- Witness: claim C9 applied to a backup root holding one metadata-less,
date-named directory. -/
theorem listBackups_synthesized_witness :
    wListEnv.readDirErr = none ∧ "2024-01-01-00-00-00" ∈ wListEnv.dirs ∧
      wListEnv.meta "2024-01-01-00-00-00" = none ∧
      wListEnv.parseDate "2024-01-01-00-00-00" = some 99 ∧
      (⟨"2024-01-01-00-00-00", 99, [], 0, BackupStatus.completed, none,
          BackupSource.localSource⟩ : BackupMetadata)
        ∈ listBackups wListEnv :=
  ⟨rfl, by decide, rfl, by decide,
    listBackups_synthesized wListEnv "2024-01-01-00-00-00" 99 rfl (by decide) rfl
      (by decide)⟩

/-! ## Claim C8 -/

/-- Claim C8: scheduler start moves from stopped to running only when the
configuration is enabled and its schedule expression validates; a disabled
configuration makes start return without change, an already-running
scheduler makes start return without change, and an enabled stopped
scheduler with an invalid expression makes start throw the configuration
error without entering the running state. -/
theorem scheduler_start_transitions (validate : String → Bool) (s : SchedulerState) :
    (s.config.enabled = false → startScheduler validate s = Except.ok s)
    ∧ (s.running = true → startScheduler validate s = Except.ok s)
    ∧ (s.config.enabled = true → s.running = false →
        validate s.config.schedule = false →
        startScheduler validate s
          = Except.error ("Invalid cron expression: " ++ s.config.schedule))
    ∧ (s.config.enabled = true → s.running = false →
        validate s.config.schedule = true →
        startScheduler validate s = Except.ok { s with running := true })
    ∧ (∀ s', startScheduler validate s = Except.ok s' → s.running = false →
        s'.running = true →
        s.config.enabled = true ∧ validate s.config.schedule = true) := by
  refine ⟨?_, ?_, ?_, ?_, ?_⟩
  · intro h1
    unfold startScheduler
    rw [if_pos h1]
  · intro h2
    unfold startScheduler
    by_cases h1 : s.config.enabled = false
    · rw [if_pos h1]
    · rw [if_neg h1, if_pos h2]
  · intro h1 h2 h3
    unfold startScheduler
    rw [if_neg (by simp [h1]), if_neg (by simp [h2]), if_pos h3]
  · intro h1 h2 h3
    unfold startScheduler
    rw [if_neg (by simp [h1]), if_neg (by simp [h2]), if_neg (by simp [h3])]
  · intro s' hok hr5 hr'5
    unfold startScheduler at hok
    cases he : s.config.enabled with
    | false =>
      rw [if_pos he] at hok
      have hss : s = s' := Except.ok.inj hok
      rw [← hss] at hr'5
      exact Bool.noConfusion (hr5.symm.trans hr'5)
    | true =>
      rw [if_neg (by simp [he]), if_neg (by simp [hr5])] at hok
      cases hv : validate s.config.schedule with
      | false =>
        rw [if_pos hv] at hok
        exact Except.noConfusion hok
      | true => exact ⟨rfl, rfl⟩

/-- Witness: claim C8 applied to concrete disabled, running, invalid and
valid scheduler states under a validator accepting the default schedule. -/
theorem scheduler_start_transitions_witness :
    (startScheduler wValidate ⟨false, cfgOff⟩ = Except.ok ⟨false, cfgOff⟩)
    ∧ (startScheduler wValidate ⟨true, cfgOk⟩ = Except.ok ⟨true, cfgOk⟩)
    ∧ (startScheduler wValidate ⟨false, cfgBad⟩
        = Except.error ("Invalid cron expression: " ++ cfgBad.schedule))
    ∧ (startScheduler wValidate ⟨false, cfgOk⟩ = Except.ok ⟨true, cfgOk⟩) :=
  ⟨(scheduler_start_transitions wValidate ⟨false, cfgOff⟩).1 rfl,
   (scheduler_start_transitions wValidate ⟨true, cfgOk⟩).2.1 rfl,
   (scheduler_start_transitions wValidate ⟨false, cfgBad⟩).2.2.1 rfl rfl (by decide),
   (scheduler_start_transitions wValidate ⟨false, cfgOk⟩).2.2.2.1 rfl rfl (by decide)⟩

/-! ## Lemmas for the retention sweep -/

theorem sortByDate_perm (backups : List BackupMetadata) :
    (sortByDate backups).Perm backups :=
  List.mergeSort_perm backups _

theorem sortByDate_pairwise (backups : List BackupMetadata) :
    List.Pairwise (fun a b : BackupMetadata => a.date ≤ b.date)
      (sortByDate backups) := by
  have h : List.Pairwise
      (fun a b : BackupMetadata => (decide (a.date ≤ b.date)) = true)
      (sortByDate backups) := by
    unfold sortByDate
    refine List.sorted_mergeSort ?_ ?_ backups
    · intro a b c hab hbc
      simp only [decide_eq_true_eq] at *
      exact le_trans hab hbc
    · intro a b
      rcases le_total a.date b.date with h | h <;> simp [h]
  exact h.imp (fun hab => of_decide_eq_true hab)

theorem retentionWindow_pairwise (backups : List BackupMetadata) (cutoff : Int) :
    List.Pairwise (fun a b : BackupMetadata => a.date ≤ b.date)
      (retentionWindow backups cutoff) :=
  List.Pairwise.sublist (List.filter_sublist _) (sortByDate_pairwise backups)

theorem backupsToDelete_filter_old (backups : List BackupMetadata)
    (now daysSpan : Int) (maxBackups : Nat) :
    (backupsToDelete backups now daysSpan maxBackups).filter
        (fun b => decide (b.date < now - daysSpan))
      = (sortByDate backups).filter (fun b => decide (b.date < now - daysSpan)) := by
  unfold backupsToDelete
  split
  · rw [List.filter_append]
    have hA : ((sortByDate backups).filter
          (fun b => decide (b.date < now - daysSpan))).filter
          (fun b => decide (b.date < now - daysSpan))
        = (sortByDate backups).filter (fun b => decide (b.date < now - daysSpan)) :=
      List.filter_eq_self.mpr (fun b hb => (List.mem_filter.mp hb).2)
    have hB : ((retentionWindow backups (now - daysSpan)).take
          (retentionExcess backups (now - daysSpan) maxBackups)).filter
          (fun b => decide (b.date < now - daysSpan)) = [] := by
      refine List.filter_eq_nil_iff.mpr (fun b hb => ?_)
      have hw := List.mem_of_mem_take hb
      have h2 := (List.mem_filter.mp hw).2
      simp only [decide_eq_true_eq] at h2 ⊢
      omega
    rw [hA, hB, List.append_nil]
  · exact List.filter_eq_self.mpr (fun b hb => (List.mem_filter.mp hb).2)

theorem backupsToDelete_filter_window (backups : List BackupMetadata)
    (now daysSpan : Int) (maxBackups : Nat) :
    (backupsToDelete backups now daysSpan maxBackups).filter
        (fun b => decide (now - daysSpan ≤ b.date))
      = (if maxBackups < (retentionWindow backups (now - daysSpan)).length then
          (retentionWindow backups (now - daysSpan)).take
            (retentionExcess backups (now - daysSpan) maxBackups)
        else []) := by
  unfold backupsToDelete
  by_cases hc : maxBackups < (retentionWindow backups (now - daysSpan)).length
  · rw [if_pos hc, if_pos hc, List.filter_append]
    have hA : ((sortByDate backups).filter
          (fun b => decide (b.date < now - daysSpan))).filter
          (fun b => decide (now - daysSpan ≤ b.date)) = [] := by
      refine List.filter_eq_nil_iff.mpr (fun b hb => ?_)
      have h2 := (List.mem_filter.mp hb).2
      simp only [decide_eq_true_eq] at h2 ⊢
      omega
    have hB : ((retentionWindow backups (now - daysSpan)).take
          (retentionExcess backups (now - daysSpan) maxBackups)).filter
          (fun b => decide (now - daysSpan ≤ b.date))
        = (retentionWindow backups (now - daysSpan)).take
            (retentionExcess backups (now - daysSpan) maxBackups) := by
      refine List.filter_eq_self.mpr (fun b hb => ?_)
      exact (List.mem_filter.mp (List.mem_of_mem_take hb)).2
    rw [hA, hB, List.nil_append]
  · rw [if_neg hc, if_neg hc]
    refine List.filter_eq_nil_iff.mpr (fun b hb => ?_)
    have h2 := (List.mem_filter.mp hb).2
    simp only [decide_eq_true_eq] at h2 ⊢
    omega

/-! ## Claim C5 -/

/-- Claim C5: the retention sweep of cleanupOldBackups selects exactly the
backups strictly older than the cutoff (as a multiset, first conjunct) plus,
when more than maxBackups remain inside the age window, exactly the oldest
excess of the sorted window and nothing from the window otherwise (second
conjunct); consequently it retains exactly min(maxBackups, window size) of
the most recent window entries (third and fourth conjuncts: the retained
suffix has that length and every selected window entry is no newer than
every retained one), and every backup older than the cutoff is always
selected regardless of maxBackups (fifth conjunct). -/
theorem cleanup_selection (backups : List BackupMetadata) (now daysSpan : Int)
    (maxBackups : Nat) :
    List.Perm
        ((backupsToDelete backups now daysSpan maxBackups).filter
          (fun b => decide (b.date < now - daysSpan)))
        (backups.filter (fun b => decide (b.date < now - daysSpan)))
    ∧ (backupsToDelete backups now daysSpan maxBackups).filter
          (fun b => decide (now - daysSpan ≤ b.date))
        = (if maxBackups < (retentionWindow backups (now - daysSpan)).length then
            (retentionWindow backups (now - daysSpan)).take
              (retentionExcess backups (now - daysSpan) maxBackups)
          else [])
    ∧ ((retentionWindow backups (now - daysSpan)).drop
          (retentionExcess backups (now - daysSpan) maxBackups)).length
        = min maxBackups (retentionWindow backups (now - daysSpan)).length
    ∧ ((retentionWindow backups (now - daysSpan)).take
          (retentionExcess backups (now - daysSpan) maxBackups)).all (fun x =>
        ((retentionWindow backups (now - daysSpan)).drop
            (retentionExcess backups (now - daysSpan) maxBackups)).all
          (fun y => decide (x.date ≤ y.date))) = true
    ∧ backups.all (fun b =>
        !decide (b.date < now - daysSpan)
          || decide (b ∈ backupsToDelete backups now daysSpan maxBackups)) = true := by
  have hpermA : List.Perm
      ((backupsToDelete backups now daysSpan maxBackups).filter
        (fun b => decide (b.date < now - daysSpan)))
      (backups.filter (fun b => decide (b.date < now - daysSpan))) := by
    rw [backupsToDelete_filter_old]
    exact List.Perm.filter _ (sortByDate_perm backups)
  refine ⟨hpermA, backupsToDelete_filter_window backups now daysSpan maxBackups,
    ?_, ?_, ?_⟩
  · rw [List.length_drop]
    unfold retentionExcess
    omega
  · have hpw := retentionWindow_pairwise backups (now - daysSpan)
    rw [← List.take_append_drop
      (retentionExcess backups (now - daysSpan) maxBackups)
      (retentionWindow backups (now - daysSpan))] at hpw
    have hcross := (List.pairwise_append.mp hpw).2.2
    refine List.all_eq_true.mpr (fun x hx => ?_)
    refine List.all_eq_true.mpr (fun y hy => ?_)
    exact decide_eq_true (hcross x hx y hy)
  · refine List.all_eq_true.mpr (fun b hb => ?_)
    by_cases hp : b.date < now - daysSpan
    · have hmem : b ∈ backups.filter (fun b => decide (b.date < now - daysSpan)) :=
        List.mem_filter.mpr ⟨hb, decide_eq_true hp⟩
      have hsel : b ∈ backupsToDelete backups now daysSpan maxBackups :=
        (List.mem_filter.mp (hpermA.mem_iff.mpr hmem)).1
      rw [decide_eq_true hsel, Bool.or_true]
    · rw [decide_eq_false hp]
      rfl

end TaxiCo
